import Mathlib

/-!
Verification of the resilient API-client and tool-dispatch layer of the
schwaizer-I14Y-mcp server (src/api/i14y-client.js, src/utils/formatting.js,
src/tools/*.js, index.js), shallowly embedded in Lean 4.

JavaScript values that flow through the layer are modelled by the inductive
type `I14Y.Value` (primitive values only: the parameter maps handled by
`_buildSearchParams` and the duck-typed error shapes handled by
`_handleError` carry strings, numbers, booleans, `null` and `undefined`).
Numbers are modelled as integers (`Int`), matching the integral pages,
page sizes and HTTP status codes that actually flow through this code.
Objects are association lists; JavaScript `Map` insertion semantics and
object-key assignment are made explicit.
-/

namespace I14Y

/-- A JavaScript primitive value as it appears in raw parameter maps. -/
inductive Value where
  | vnull
  | vundef
  | vstr (s : String)
  | vnum (n : Int)
  | vbool (b : Bool)
deriving DecidableEq, Repr

/-- JS `String(value)` for the primitive values of `Value`.
`Int.repr` is exactly Lean's decimal rendering of an integer, which agrees
with JS `String(n)` on integers. -/
def valueToString : Value → String
  | .vnull => "null"
  | .vundef => "undefined"
  | .vstr s => s
  | .vnum n => Int.repr n
  | .vbool b => if b then "true" else "false"

/-- The keep test of `_buildSearchParams`
(`value !== undefined && value !== null && value !== ''`). -/
def keepValue : Value → Bool
  | .vnull => false
  | .vundef => false
  | .vstr s => !(s == "")
  | .vnum _ => true
  | .vbool _ => true

/-- Raw parameter object: key/value pairs in insertion order. -/
abbrev RawParams := List (String × Value)

/-- String-valued query parameter object, as produced by
`_buildSearchParams`. -/
abbrev QueryParams := List (String × String)

/-- JS property read `obj[k]` on a raw parameter object. -/
def lookupVal (m : RawParams) (k : String) : Option Value :=
  (m.find? (fun p => p.1 == k)).map (·.2)

/-- JS property read `obj[k]` on a string-valued object. -/
def lookupStr (m : QueryParams) (k : String) : Option String :=
  (m.find? (fun p => p.1 == k)).map (·.2)

/-- JS truthiness of the property read `searchParams[k]`:
the property is present and its value is a non-empty string. -/
def truthyLookup (m : QueryParams) (k : String) : Bool :=
  match lookupStr m k with
  | none => false
  | some s => !(s == "")

/-- JS property assignment `obj[k] = v` on a string-valued object (keys
are unique): replace in place when the key is present, append otherwise. -/
def setKey : QueryParams → String → String → QueryParams
  | [], k, v => [(k, v)]
  | p :: t, k, v => if p.1 == k then (k, v) :: t else p :: setKey t k v

/-- The `Object.entries(params).forEach` loop of `_buildSearchParams`:
keep the entries whose value is not `undefined`, `null` or `''`,
stringifying each kept value. -/
def dropAndStringify (params : RawParams) : QueryParams :=
  (params.filter (fun p => keepValue p.2)).map (fun p => (p.1, valueToString p.2))

/-- Embedding of `I14YClient._buildSearchParams(params, defaultPage,
defaultPageSize)` (src/api/i14y-client.js, lines 323-342): drop empty
values, stringify the rest, then fill in `page` and `pageSize` when the
resulting properties are falsy. -/
def _buildSearchParams (params : RawParams) (defaultPage : Int := 1)
    (defaultPageSize : Int := 25) : QueryParams :=
  let sp := dropAndStringify params
  let sp := if !truthyLookup sp "page" then setKey sp "page" (Int.repr defaultPage) else sp
  let sp := if !truthyLookup sp "pageSize" then setKey sp "pageSize" (Int.repr defaultPageSize) else sp
  sp

/-- Re-reading a canonical query as a raw parameter object (every value a
JS string), as happens when a canonical query is canonicalized again. -/
def injectStr (m : QueryParams) : RawParams :=
  m.map (fun p => (p.1, Value.vstr p.2))

/-- The `response` field of a duck-typed error object: an object that may
or may not carry a numeric `status` property. -/
structure RespObj where
  status : Option Int
deriving DecidableEq, Repr

/-- A duck-typed JavaScript error input to `_handleError`: `null`,
`undefined`, a plain string, or an object with optional `message` and
`response` properties. -/
inductive ErrInput where
  | vnull
  | vundef
  | vstr (s : String)
  | vobj (message : Option String) (response : Option RespObj)
deriving DecidableEq, Repr

/-- JS truthiness of `error.message` for an `ErrInput`
(property access on a string yields `undefined`, hence falsy). -/
def errMessageTruthy : ErrInput → Bool
  | .vobj (some m) _ => !(m == "")
  | _ => false

/-- JS truthiness of `error.response` for an `ErrInput`
(an object-valued property is truthy, an absent one is `undefined`). -/
def errResponseTruthy : ErrInput → Bool
  | .vobj _ (some _) => true
  | _ => false

/-- The result of `_handleError`: either the original error value passed
through unchanged, or a freshly constructed `Error` with the given message. -/
inductive HandleErrResult where
  | passthru (e : ErrInput)
  | newError (msg : String)
deriving DecidableEq, Repr

/-- Embedding of `I14YClient._handleError(error)` (src/api/i14y-client.js,
lines 351-379).  Property access `error.message` on `null`/`undefined`
raises a `TypeError`, modelled by the `Except.error` branch; every other
input produces a value. -/
def _handleError (error : ErrInput) : Except String HandleErrResult :=
  match error with
  | .vnull => .error "TypeError: Cannot read properties of null"
  | .vundef => .error "TypeError: Cannot read properties of undefined"
  | e =>
    if errMessageTruthy e && !errResponseTruthy e then
      .ok (.passthru e)
    else
      match e with
      | .vobj _ (some resp) =>
        match resp.status with
        | some s =>
          let message := "API request failed with status " ++ Int.repr s
          if s = 400 then .ok (.newError (message ++ ": Bad Request - Invalid parameters"))
          else if s = 401 then .ok (.newError (message ++ ": Unauthorized"))
          else if s = 403 then .ok (.newError (message ++ ": Forbidden"))
          else if s = 404 then .ok (.newError (message ++ ": Resource not found"))
          else if s ≥ 500 then .ok (.newError (message ++ ": Server error"))
          else .ok (.passthru e)
        | none => .ok (.passthru e)
      | _ => .ok (.passthru e)

/-- The `.message` carried by a `HandleErrResult`, when any. -/
def resultMessage : HandleErrResult → Option String
  | .passthru (.vobj (some m) _) => some m
  | .passthru _ => none
  | .newError m => some m

/-- Does `pat` occur as a contiguous sublist of the argument? -/
def containsAux (pat : List Char) : List Char → Bool
  | [] => pat.isEmpty
  | c :: t => pat.isPrefixOf (c :: t) || containsAux pat t

/-- Boolean substring test (JS `String.prototype.includes`). -/
def strContains (s sub : String) : Bool :=
  containsAux sub.data s.data

/-- One `content` item of an MCP response envelope. -/
structure ContentItem where
  type : String
  text : String
deriving DecidableEq, Repr

/-- An MCP response envelope as built by this repository:
`content` list plus an optional `isError` flag (`none` models the field
being absent from the returned object). -/
structure Envelope where
  content : List ContentItem
  isError : Option Bool
deriving DecidableEq, Repr

/-- The value a tool handler passes to `formatSuccess`: either a plain
string, or a structured value together with its `JSON.stringify(v, null, 2)`
rendering (the rendering is carried because only the serialized text ever
reaches the envelope). -/
inductive Payload where
  | str (s : String)
  | json (rendered : String)
deriving DecidableEq, Repr

/-- The text `formatSuccess` puts into the envelope:
`typeof data === "string" ? data : JSON.stringify(data, null, 2)`. -/
def renderPayload : Payload → String
  | .str s => s
  | .json r => r

/-- Embedding of `formatSuccess(data)` (src/utils/formatting.js, lines
11-20): a one-item text envelope with no `isError` field. -/
def formatSuccess (data : Payload) : Envelope :=
  { content := [⟨"text", renderPayload data⟩], isError := none }

/-- A zod validation issue, restricted to the issue kinds the schemas of
this repository can produce. -/
inductive ZodIssue where
  | tooSmall (minimum : Int) (path : List String) (message : String)
  | tooBig (maximum : Int) (path : List String) (message : String)
  | invalidType (expected received : String) (path : List String) (message : String)
  | invalidEnum (received : String) (options : List String) (path : List String) (message : String)
deriving DecidableEq, Repr

/-- Path of a zod issue. -/
def ZodIssue.pathOf : ZodIssue → List String
  | .tooSmall _ p _ => p
  | .tooBig _ p _ => p
  | .invalidType _ _ p _ => p
  | .invalidEnum _ _ p _ => p

/-- Message of a zod issue. -/
def ZodIssue.messageOf : ZodIssue → String
  | .tooSmall _ _ m => m
  | .tooBig _ _ m => m
  | .invalidType _ _ _ m => m
  | .invalidEnum _ _ _ m => m

/-- The error value `formatError` can receive: `null`/`undefined`, a plain
string, an `Error` instance (with `name`, optional `issues`, optional
`response`), or a plain object with an optional `message`. -/
inductive FEInput where
  | fnull
  | fstr (s : String)
  | ferror (message : String) (name : String) (issues : Option (List ZodIssue))
      (response : Option RespObj)
  | fobj (message : Option String)
deriving DecidableEq, Repr

/-- Embedding of `formatError(error)` (src/utils/formatting.js, lines
27-65).  JS truthiness of `error.response.status` is a nonzero number. -/
def formatError : FEInput → Envelope
  | .fnull => { content := [⟨"text", "Error: Unknown error"⟩], isError := some true }
  | .fstr s => { content := [⟨"text", "Error: " ++ s⟩], isError := some true }
  | .fobj m =>
    let msg := match m with
      | some s => if s == "" then "Unknown error" else s
      | none => "Unknown error"
    { content := [⟨"text", "Error: " ++ msg⟩], isError := some true }
  | .ferror message name issues response =>
    let msg1 := if message == "" then "Unknown error" else message
    let msg2 := match response with
      | some r =>
        match r.status with
        | some s => if s == 0 then msg1 else Int.repr s ++ ": " ++ msg1
        | none => msg1
      | none => msg1
    let msg3 := match issues with
      | some iss =>
        if name == "ValidationError" then
          "Validation Error:\n" ++
            String.intercalate "\n"
              (iss.map (fun i => String.intercalate "." i.pathOf ++ ": " ++ i.messageOf))
        else msg2
      | none => msg2
    { content := [⟨"text", "Error: " ++ msg3⟩], isError := some true }

/-- The message read by `${error.message}` in a tool handler's catch block
when the thrown value is a `_handleError` result (`undefined` when the
thrown value has no `message` property). -/
def thrownMessage : HandleErrResult → String
  | .newError m => m
  | .passthru (.vobj (some m) _) => m
  | .passthru _ => "undefined"

/-- Conversion of a thrown `_handleError` result into the shape `formatError`
receives: normalized errors are `Error` instances, passed-through values
keep their duck-typed shape. -/
def feOfThrown : HandleErrResult → FEInput
  | .newError m => .ferror m "Error" none none
  | .passthru (.vobj m _) => .fobj m
  | .passthru (.vstr s) => .fstr s
  | .passthru _ => .fnull

/-- A registered tool handler.  Each of the repository's handlers follows
one of two catch styles: concept/catalog tools build the error envelope
inline (`Error <context>: ${error.message}`), dataset/data-service/
public-service tools delegate to `formatError`.  The handler's own
re-parse of the already-validated arguments (same schema, succeeds) is
elided; `call` is the facade call it makes with them. -/
inductive RegisteredHandlerModel where
  | inlineStyle (ctx : String) (call : RawParams → Except HandleErrResult Payload)
  | formatErrorStyle (call : RawParams → Except HandleErrResult Payload)

/-- The facade call a handler makes. -/
def handlerCall : RegisteredHandlerModel → RawParams → Except HandleErrResult Payload
  | .inlineStyle _ c => c
  | .formatErrorStyle c => c

/-- Run a registered tool handler on validated arguments: success is
wrapped by `formatSuccess`, a caught error by the handler's catch style. -/
def runRegisteredHandler : RegisteredHandlerModel → RawParams → Envelope
  | .inlineStyle ctx call, args =>
    match call args with
    | .ok p => formatSuccess p
    | .error e =>
      { content := [⟨"text", ctx ++ thrownMessage e⟩], isError := some true }
  | .formatErrorStyle call, args =>
    match call args with
    | .ok p => formatSuccess p
    | .error e => formatError (feOfThrown e)

/-- Outcome of invoking a tool handler from the dispatch layer: it either
returns an envelope or throws. -/
inductive ToolOutcome where
  | envelope (e : Envelope)
  | thrown (message : String)

/-- Embedding of the `CallToolRequestSchema` handler for a registered tool
(index.js, lines 124-158): validate the arguments with the tool's schema,
run the handler, and catch any exception into an error envelope. `parse`
models `tool.schema.parse(args)` (`Except.error` carries the thrown
error's `.message`). -/
def dispatchCallTool (name : String) (parse : Except String RawParams)
    (handler : RawParams → ToolOutcome) : Envelope :=
  match parse with
  | .error m =>
    { content := [⟨"text", "Error executing " ++ name ++ ": " ++ m⟩], isError := some true }
  | .ok args =>
    match handler args with
    | .envelope e => e
    | .thrown m =>
      { content := [⟨"text", "Error executing " ++ name ++ ": " ++ m⟩], isError := some true }

/-- Identity of each handler placed in the tool registry by the five
registration functions called from index.js. -/
inductive ToolHandlerId where
  | catalogGetCodeListEntries
  | conceptSearchConcepts
  | conceptGetConcept
  | conceptGetCodeListEntries
  | datasetSearchDatasets
  | datasetGetDataset
  | dataServiceSearchDataServices
  | dataServiceGetDataService
  | publicServiceSearchPublicServices
  | publicServiceGetPublicService
deriving DecidableEq, Repr

/-- Tool registry contents, in insertion order. -/
abbrev ToolRegistry := List (String × ToolHandlerId)

/-- JS `Map.prototype.set` on the tool registry (`tools.set(name, ...)`,
index.js line 73): replace in place when the key exists (keeping insertion
order), append otherwise. -/
def toolsSet : ToolRegistry → String → ToolHandlerId → ToolRegistry
  | [], k, v => [(k, v)]
  | p :: t, k, v => if p.1 == k then (k, v) :: t else p :: toolsSet t k v

/-- Registration by `registerCatalogTools(server)` (src/tools/catalog-tools.js). -/
def registerCatalogTools (m : ToolRegistry) : ToolRegistry :=
  toolsSet m "get_code_list_entries" .catalogGetCodeListEntries

/-- Registration by `registerConceptTools(server)` (src/tools/concept-tools.js,
lines 167-188), in source order. -/
def registerConceptTools (m : ToolRegistry) : ToolRegistry :=
  toolsSet (toolsSet (toolsSet m "search_concepts" .conceptSearchConcepts)
    "get_concept" .conceptGetConcept)
    "get_code_list_entries" .conceptGetCodeListEntries

/-- Registration by `registerDatasetTools(server)` (src/tools/dataset-tools.js). -/
def registerDatasetTools (m : ToolRegistry) : ToolRegistry :=
  toolsSet (toolsSet m "search_datasets" .datasetSearchDatasets)
    "get_dataset" .datasetGetDataset

/-- Registration by `registerDataServiceTools(server)`
(src/tools/data-service-tools.js). -/
def registerDataServiceTools (m : ToolRegistry) : ToolRegistry :=
  toolsSet (toolsSet m "search_data_services" .dataServiceSearchDataServices)
    "get_data_service" .dataServiceGetDataService

/-- Registration by `registerPublicServiceTools(server)`
(src/tools/public-service-tools.js). -/
def registerPublicServiceTools (m : ToolRegistry) : ToolRegistry :=
  toolsSet (toolsSet m "search_public_services" .publicServiceSearchPublicServices)
    "get_public_service" .publicServiceGetPublicService

/-- The tool registry after the five registration calls of index.js,
lines 84-88, in that order (catalog first, then concept, dataset,
data-service, public-service). -/
def registeredTools : ToolRegistry :=
  registerPublicServiceTools (registerDataServiceTools (registerDatasetTools
    (registerConceptTools (registerCatalogTools []))))

/-- JS `tools.get(name)` (index.js line 129). -/
def toolsGet (name : String) : Option ToolHandlerId :=
  (registeredTools.find? (fun p => p.1 == name)).map (·.2)

/-- An HTTP GET call issued through the ky client: relative path and the
`searchParams` option when one is passed (`none` models a call with no
options object at all). -/
structure HttpRequest where
  path : String
  searchParams : Option QueryParams
deriving DecidableEq, Repr

/-- Request issued by `I14YClient.getConcept(conceptId, includeCodeListEntries)`
(src/api/i14y-client.js, lines 66-78). -/
def getConceptRequest (conceptId : String) (includeCodeListEntries : Bool) : HttpRequest :=
  if includeCodeListEntries then
    ⟨"concepts/" ++ conceptId, some [("includeCodeListEntries", "true")]⟩
  else
    ⟨"concepts/" ++ conceptId, none⟩

/-- Request issued by `I14YClient.getCodeListEntries(conceptId, params)`
(src/api/i14y-client.js, lines 88-100). -/
def getCodeListEntriesRequest (conceptId : String) (params : RawParams) : HttpRequest :=
  ⟨"concepts/" ++ conceptId ++ "/codelistentries", some (_buildSearchParams params 1 25)⟩

/-- Request issued by `I14YClient.getDataset(datasetId, language)`
(src/api/i14y-client.js, lines 132-144): a plain request (no options
object) when `language` is falsy, otherwise `searchParams: { language }`. -/
def getDatasetRequest (datasetId : String) (language : Option String) : HttpRequest :=
  match language with
  | some l =>
    if l == "" then ⟨"datasets/" ++ datasetId, none⟩
    else ⟨"datasets/" ++ datasetId, some [("language", l)]⟩
  | none => ⟨"datasets/" ++ datasetId, none⟩

/-- Request issued by `I14YClient.searchConcepts(params)`
(src/api/i14y-client.js, lines 114-123). -/
def searchConceptsRequest (params : RawParams) : HttpRequest :=
  ⟨"concepts", some (_buildSearchParams params 1 25)⟩

/-- The HTTP request the registered `get_code_list_entries` handler issues
when dispatched with a validated `id` (pagination arguments at their
schema defaults).  The concept-tools handler calls
`i14yClient.getConcept(id, true)` (src/tools/concept-tools.js line 143);
the catalog-tools handler calls `i14yClient.getCodeListEntries(id,
{ page, pageSize })` (src/tools/catalog-tools.js lines 223-226).  Handlers
of other tools are not code-list handlers (`none`). -/
def codeListEntriesHandlerRequest (h : ToolHandlerId) (id : String) : Option HttpRequest :=
  match h with
  | .conceptGetCodeListEntries => some (getConceptRequest id true)
  | .catalogGetCodeListEntries =>
    some (getCodeListEntriesRequest id [("page", .vnum 1), ("pageSize", .vnum 25)])
  | _ => none

/-- JSON string literal (the strings of this development contain no
characters needing escapes). -/
def jsonQuote (s : String) : String := "\"" ++ s ++ "\""

/-- Rendering of an issue `path` array by `JSON.stringify(·, null, 2)` at
nesting depth 2. -/
def renderPathArr (path : List String) : String :=
  match path with
  | [] => "[]"
  | _ =>
    "[\n" ++ String.intercalate ",\n" (path.map (fun p => "      " ++ jsonQuote p)) ++
      "\n    ]"

/-- Field list of a zod issue object, in the order zod v3 creates the
fields. -/
def renderIssueFields : ZodIssue → List (String × String)
  | .tooSmall minimum path message =>
    [("code", jsonQuote "too_small"), ("minimum", Int.repr minimum),
     ("type", jsonQuote "number"), ("inclusive", "true"), ("exact", "false"),
     ("message", jsonQuote message), ("path", renderPathArr path)]
  | .tooBig maximum path message =>
    [("code", jsonQuote "too_big"), ("maximum", Int.repr maximum),
     ("type", jsonQuote "number"), ("inclusive", "true"), ("exact", "false"),
     ("message", jsonQuote message), ("path", renderPathArr path)]
  | .invalidType expected received path message =>
    [("code", jsonQuote "invalid_type"), ("expected", jsonQuote expected),
     ("received", jsonQuote received), ("path", renderPathArr path),
     ("message", jsonQuote message)]
  | .invalidEnum received options path message =>
    [("received", jsonQuote received), ("code", jsonQuote "invalid_enum_value"),
     ("options", "[" ++ String.intercalate ", " (options.map jsonQuote) ++ "]"),
     ("path", renderPathArr path), ("message", jsonQuote message)]

/-- Rendering of one zod issue object by `JSON.stringify(·, null, 2)` at
nesting depth 1. -/
def renderIssue (i : ZodIssue) : String :=
  "\x7b\n" ++
    String.intercalate ",\n"
      ((renderIssueFields i).map (fun f => "    " ++ jsonQuote f.1 ++ ": " ++ f.2)) ++
    "\n  \x7d"

/-- Model of `ZodError.prototype.message` (zod v3): the JSON rendering
`JSON.stringify(this.issues, null, 2)` of the issue list. -/
def zodErrorMessage (issues : List ZodIssue) : String :=
  match issues with
  | [] => "[]"
  | _ => "[\n  " ++ String.intercalate ",\n  " (issues.map renderIssue) ++ "\n]"

/-- Name of a JS value's type as zod reports it in `received`. -/
def jsTypeName : Value → String
  | .vnull => "null"
  | .vundef => "undefined"
  | .vstr _ => "string"
  | .vnum _ => "number"
  | .vbool _ => "boolean"

/-- Validation of one optional `z.string()` field: absent or `undefined`
is fine (and omitted from the parsed object), a string passes through,
anything else is an `invalid_type` issue. -/
def checkStringField (args : RawParams) (key : String) : List ZodIssue × RawParams :=
  match lookupVal args key with
  | none => ([], [])
  | some .vundef => ([], [])
  | some (.vstr s) => ([], [(key, .vstr s)])
  | some v =>
    ([.invalidType "string" (jsTypeName v) [key]
        ("Expected string, received " ++ jsTypeName v)], [])

/-- Validation of one optional `z.enum([...])` field.  Quote characters of
the real zod messages are elided; no claim depends on these texts. -/
def checkEnumField (args : RawParams) (key : String) (options : List String) :
    List ZodIssue × RawParams :=
  match lookupVal args key with
  | none => ([], [])
  | some .vundef => ([], [])
  | some (.vstr s) =>
    if options.contains s then ([], [(key, .vstr s)])
    else
      ([.invalidEnum s options [key]
          ("Invalid enum value. Expected " ++ String.intercalate " | " options ++
            ", received " ++ s)], [])
  | some v =>
    ([.invalidType (String.intercalate " | " options) (jsTypeName v) [key]
        ("Expected " ++ String.intercalate " | " options ++ ", received " ++
          jsTypeName v)], [])

/-- Validation of a `z.number().int().min(minv)[.max(maxv)].default(d)`
pagination field.  `Value.vnum` carries integers, so the `.int()` check
cannot fire in this model. -/
def checkPageField (args : RawParams) (key : String) (d minv : Int)
    (maxv : Option Int) : List ZodIssue × RawParams :=
  match lookupVal args key with
  | none => ([], [(key, .vnum d)])
  | some .vundef => ([], [(key, .vnum d)])
  | some (.vnum n) =>
    let small := if n < minv then
        [ZodIssue.tooSmall minv [key]
          ("Number must be greater than or equal to " ++ Int.repr minv)]
      else []
    let big := match maxv with
      | some M =>
        if n > M then
          [ZodIssue.tooBig M [key]
            ("Number must be less than or equal to " ++ Int.repr M)]
        else []
      | none => []
    (small ++ big, if (small ++ big).isEmpty then [(key, .vnum n)] else [])
  | some v =>
    ([.invalidType "number" (jsTypeName v) [key]
        ("Expected number, received " ++ jsTypeName v)], [])

/-- Model of `searchConceptsSchema.parse(args)` (src/tools/concept-tools.js,
lines 16-47): aggregate every issue; on success return the parsed object
(declared fields only, defaults filled, unknown keys stripped). -/
def searchConceptsParse (args : RawParams) : Except (List ZodIssue) RawParams :=
  let c1 := checkStringField args "conceptIdentifier"
  let c2 := checkStringField args "publisherIdentifier"
  let c3 := checkStringField args "version"
  let c4 := checkEnumField args "publicationLevel" ["Internal", "Public"]
  let c5 := checkEnumField args "registrationStatus"
    ["Incomplete", "Candidate", "Recorded", "Qualified", "Standard",
     "PreferredStandard", "Superseded", "Retired"]
  let c6 := checkPageField args "page" 1 1 none
  let c7 := checkPageField args "pageSize" 25 1 (some 100)
  let issues := c1.1 ++ c2.1 ++ c3.1 ++ c4.1 ++ c5.1 ++ c6.1 ++ c7.1
  if issues.isEmpty then .ok (c1.2 ++ c2.2 ++ c3.2 ++ c4.2 ++ c5.2 ++ c6.2 ++ c7.2)
  else .error issues

/-- End-to-end dispatch of the `search_concepts` tool (index.js lines
124-158 composed with the handler of src/tools/concept-tools.js lines
78-96): validate with `searchConceptsSchema`, then run the handler, which
re-parses the validated arguments (elided, succeeds) and issues
`client.get('concepts', { searchParams })`.  Returns the envelope and the
HTTP request issued, `none` when validation failed before any network
call. -/
def dispatchSearchConcepts (args : RawParams)
    (clientResult : Except HandleErrResult Payload) : Envelope × Option HttpRequest :=
  match searchConceptsParse args with
  | .error issues =>
    ({ content := [⟨"text", "Error executing search_concepts: " ++ zodErrorMessage issues⟩],
       isError := some true }, none)
  | .ok validated =>
    let req := searchConceptsRequest validated
    match clientResult with
    | .ok p => (formatSuccess p, some req)
    | .error e =>
      ({ content := [⟨"text", "Error searching concepts: " ++ thrownMessage e⟩],
         isError := some true }, some req)

/-- Pagination metadata returned by `formatPaginationInfo`. -/
structure PaginationInfo where
  page : Int
  pageSize : Int
  totalItems : Int
  totalPages : Int
  hasNextPage : Bool
  hasPreviousPage : Bool
deriving DecidableEq, Repr

/-- Embedding of `formatPaginationInfo(page, pageSize, totalItems)`
(src/utils/formatting.js, lines 74-84): `Math.ceil` of the exact quotient,
0-indexed next/previous page arithmetic. -/
def formatPaginationInfo (page pageSize totalItems : Int) : PaginationInfo :=
  let totalPages : Int := ⌈(totalItems : ℚ) / (pageSize : ℚ)⌉
  { page := page, pageSize := pageSize, totalItems := totalItems,
    totalPages := totalPages,
    hasNextPage := decide (page < totalPages - 1),
    hasPreviousPage := decide (page > 0) }

/-! Helper lemmas: decimal renderings are never empty, and association-list
operations behave as expected. -/

theorem toDigitsCore_length_le (b : Nat) :
    ∀ (fuel n : Nat) (ds : List Char), ds.length ≤ (Nat.toDigitsCore b fuel n ds).length := by
  intro fuel
  induction fuel with
  | zero => intro n ds; simp [Nat.toDigitsCore]
  | succ f ih =>
    intro n ds
    simp only [Nat.toDigitsCore]
    split
    · simp
    · exact le_trans (by simp) (ih _ _)

theorem toDigitsCore_length_lt (b fuel n : Nat) (ds : List Char) :
    ds.length < (Nat.toDigitsCore b (fuel + 1) n ds).length := by
  simp only [Nat.toDigitsCore]
  split
  · simp
  · exact lt_of_lt_of_le (by simp) (toDigitsCore_length_le b fuel _ _)

theorem natRepr_ne_empty (n : Nat) : Nat.repr n ≠ "" := by
  intro he
  have hd : (Nat.toDigits 10 n).length = 0 := by
    have h2 : (Nat.repr n).data = "".data := congrArg String.data he
    simpa [Nat.repr, List.asString] using congrArg List.length h2
  have hlt := toDigitsCore_length_lt 10 n n []
  simp only [Nat.toDigits] at hd
  omega

theorem intRepr_ne_empty (n : Int) : Int.repr n ≠ "" := by
  cases n with
  | ofNat m => simpa [Int.repr] using natRepr_ne_empty m
  | negSucc m =>
    intro he
    have h2 : (Int.repr (Int.negSucc m)).data = "".data := congrArg String.data he
    have h3 : ("-" ++ Nat.repr (m + 1)).data = ("-".data ++ (Nat.repr (m + 1)).data) := rfl
    simp only [Int.repr, h3] at h2
    simpa using congrArg List.length h2

theorem valueToString_ne_empty {v : Value} (hv : keepValue v = true) :
    valueToString v ≠ "" := by
  cases v with
  | vnull => simp [keepValue] at hv
  | vundef => simp [keepValue] at hv
  | vstr s => simpa [keepValue, valueToString] using hv
  | vnum n => exact intRepr_ne_empty n
  | vbool b => cases b <;> simp [valueToString]

theorem find?_setKey_self (m : QueryParams) (k v : String) :
    (setKey m k v).find? (fun p => p.1 == k) = some (k, v) := by
  induction m with
  | nil =>
    rw [setKey, List.find?_cons_of_pos _ (by simp)]
  | cons p t ih =>
    cases hb : (p.1 == k) with
    | true =>
      rw [setKey, if_pos hb, List.find?_cons_of_pos _ (by simp)]
    | false =>
      rw [setKey, if_neg (by simp [hb]), List.find?_cons_of_neg _ (by simp [hb])]
      exact ih

theorem find?_setKey_other (m : QueryParams) (k v k' : String) (hkk : k ≠ k') :
    (setKey m k v).find? (fun p => p.1 == k') = m.find? (fun p => p.1 == k') := by
  induction m with
  | nil =>
    rw [setKey, List.find?_cons_of_neg _ (by simp [hkk]), List.find?_nil]
  | cons p t ih =>
    cases hb : (p.1 == k) with
    | true =>
      have hpk : p.1 = k := by simpa using hb
      rw [setKey, if_pos hb, List.find?_cons_of_neg _ (by simp [hkk]),
        List.find?_cons_of_neg _ (by simp [hpk, hkk])]
    | false =>
      rw [setKey, if_neg (by simp [hb])]
      cases hb' : (p.1 == k') with
      | true =>
        rw [List.find?_cons_of_pos _ (by simp [hb']), List.find?_cons_of_pos _ (by simp [hb'])]
      | false =>
        rw [List.find?_cons_of_neg _ (by simp [hb']), List.find?_cons_of_neg _ (by simp [hb'])]
        exact ih

theorem mem_setKey {m : QueryParams} {k v : String} {q : String × String}
    (h : q ∈ setKey m k v) : q ∈ m ∨ q = (k, v) := by
  induction m with
  | nil =>
    rw [setKey] at h
    right; simpa using h
  | cons p t ih =>
    cases hb : (p.1 == k) with
    | true =>
      rw [setKey, if_pos hb] at h
      rcases List.mem_cons.mp h with h | h
      · right; exact h
      · left; exact List.mem_cons_of_mem _ h
    | false =>
      rw [setKey, if_neg (by simp [hb])] at h
      rcases List.mem_cons.mp h with h | h
      · left; exact h ▸ List.mem_cons_self _ _
      · rcases ih h with h | h
        · left; exact List.mem_cons_of_mem _ h
        · right; exact h

theorem lookupStr_setKey_self (m : QueryParams) (k v : String) :
    lookupStr (setKey m k v) k = some v := by
  unfold lookupStr
  rw [find?_setKey_self]
  rfl

theorem lookupStr_setKey_other (m : QueryParams) (k v k' : String) (hkk : k ≠ k') :
    lookupStr (setKey m k v) k' = lookupStr m k' := by
  unfold lookupStr
  rw [find?_setKey_other m k v k' hkk]

theorem mem_dropAndStringify_ne_empty {P : RawParams} {q : String × String}
    (h : q ∈ dropAndStringify P) : q.2 ≠ "" := by
  unfold dropAndStringify at h
  obtain ⟨p, hp, he⟩ := List.mem_map.mp h
  have hk := (List.mem_filter.mp hp).2
  rw [← he]
  exact valueToString_ne_empty hk

theorem lookupVal_of_mem_nodup {P : RawParams} {p : String × Value}
    (hnd : (P.map Prod.fst).Nodup) (hp : p ∈ P) : lookupVal P p.1 = some p.2 := by
  induction P with
  | nil => simp at hp
  | cons q t ih =>
    have hnd2 : (q.1 :: t.map Prod.fst).Nodup := by rw [List.map_cons] at hnd; exact hnd
    have hmem : q.1 ∉ t.map Prod.fst := (List.nodup_cons.mp hnd2).1
    have hndt : (t.map Prod.fst).Nodup := (List.nodup_cons.mp hnd2).2
    rcases List.mem_cons.mp hp with h | h
    · subst h
      unfold lookupVal
      simp [List.find?_cons]
    · have hq : (q.1 == p.1) = false := by
        simp only [beq_eq_false_iff_ne, ne_eq]
        intro he
        exact hmem (he ▸ List.mem_map_of_mem Prod.fst h)
      unfold lookupVal
      simp only [List.find?_cons, hq]
      exact ih hndt h

theorem lookupStr_dropAndStringify_none {P : RawParams} {k : String}
    (hnd : (P.map Prod.fst).Nodup)
    (h : ∀ v, lookupVal P k = some v → keepValue v = false) :
    lookupStr (dropAndStringify P) k = none := by
  have hf : (dropAndStringify P).find? (fun p => p.1 == k) = none := by
    rw [List.find?_eq_none]
    intro x hx hpx
    unfold dropAndStringify at hx
    obtain ⟨p, hp, he⟩ := List.mem_map.mp hx
    obtain ⟨hpP, hkeep⟩ := List.mem_filter.mp hp
    have hx1 : p.1 = k := by
      have : x.1 = p.1 := by rw [← he]
      rw [← this]
      simpa using hpx
    have hlk : lookupVal P k = some p.2 := hx1 ▸ lookupVal_of_mem_nodup hnd hpP
    rw [h p.2 hlk] at hkeep
    exact Bool.false_ne_true hkeep
  unfold lookupStr
  rw [hf]
  rfl

theorem lookupStr_dropAndStringify_kept {P : RawParams} {k : String} {v : Value}
    (hnd : (P.map Prod.fst).Nodup) (hv : lookupVal P k = some v)
    (hkeep : keepValue v = true) :
    lookupStr (dropAndStringify P) k = some (valueToString v) := by
  induction P with
  | nil => simp [lookupVal] at hv
  | cons p t ih =>
    have hnd2 : (p.1 :: t.map Prod.fst).Nodup := by rw [List.map_cons] at hnd; exact hnd
    have hndt : (t.map Prod.fst).Nodup := (List.nodup_cons.mp hnd2).2
    cases hb : (p.1 == k) with
    | true =>
      have hv2 : v = p.2 := by
        unfold lookupVal at hv
        simp only [List.find?_cons, hb] at hv
        simpa using hv.symm
      subst hv2
      unfold dropAndStringify
      rw [List.filter_cons, if_pos hkeep, List.map_cons]
      unfold lookupStr
      simp [List.find?_cons, hb]
    | false =>
      have hv' : lookupVal t k = some v := by
        unfold lookupVal at hv ⊢
        simp only [List.find?_cons, hb] at hv
        exact hv
      have hrec := ih hndt hv'
      unfold dropAndStringify at hrec ⊢
      rw [List.filter_cons]
      cases hkp : keepValue p.2 with
      | true =>
        rw [if_pos rfl, List.map_cons]
        unfold lookupStr at hrec ⊢
        simp only [List.find?_cons, hb]
        exact hrec
      | false =>
        rw [if_neg Bool.false_ne_true]
        exact hrec

theorem buildSearchParams_lookup_other (P : RawParams) (d1 d2 : Int) (k : String)
    (h1 : k ≠ "page") (h2 : k ≠ "pageSize") :
    lookupStr (_buildSearchParams P d1 d2) k = lookupStr (dropAndStringify P) k := by
  simp only [_buildSearchParams]
  split
  · split
    · rw [lookupStr_setKey_other _ _ _ _ (Ne.symm h2),
        lookupStr_setKey_other _ _ _ _ (Ne.symm h1)]
    · rw [lookupStr_setKey_other _ _ _ _ (Ne.symm h1)]
  · split
    · rw [lookupStr_setKey_other _ _ _ _ (Ne.symm h2)]
    · rfl

theorem buildSearchParams_values_ne_empty {P : RawParams} {d1 d2 : Int}
    {q : String × String} (h : q ∈ _buildSearchParams P d1 d2) : q.2 ≠ "" := by
  simp only [_buildSearchParams] at h
  split at h
  · split at h
    · rcases mem_setKey h with h | h
      · rcases mem_setKey h with h | h
        · exact mem_dropAndStringify_ne_empty h
        · rw [h]; exact intRepr_ne_empty d1
      · rw [h]; exact intRepr_ne_empty d2
    · rcases mem_setKey h with h | h
      · exact mem_dropAndStringify_ne_empty h
      · rw [h]; exact intRepr_ne_empty d1
  · split at h
    · rcases mem_setKey h with h | h
      · exact mem_dropAndStringify_ne_empty h
      · rw [h]; exact intRepr_ne_empty d2
    · exact mem_dropAndStringify_ne_empty h

theorem truthyLookup_setKey_self (m : QueryParams) (k v : String) (hv : v ≠ "") :
    truthyLookup (setKey m k v) k = true := by
  unfold truthyLookup
  rw [lookupStr_setKey_self]
  simp [hv]

theorem truthyLookup_setKey_other (m : QueryParams) (k v k' : String) (hkk : k ≠ k') :
    truthyLookup (setKey m k v) k' = truthyLookup m k' := by
  unfold truthyLookup
  rw [lookupStr_setKey_other m k v k' hkk]

theorem truthy_build_page (P : RawParams) (d1 d2 : Int) :
    truthyLookup (_buildSearchParams P d1 d2) "page" = true := by
  simp only [_buildSearchParams]
  split
  · split
    · rw [truthyLookup_setKey_other _ _ _ _ (by decide)]
      exact truthyLookup_setKey_self _ _ _ (intRepr_ne_empty d1)
    · exact truthyLookup_setKey_self _ _ _ (intRepr_ne_empty d1)
  case isFalse h =>
    have hp : truthyLookup (dropAndStringify P) "page" = true := by simpa using h
    split
    · rw [truthyLookup_setKey_other _ _ _ _ (by decide)]
      exact hp
    · exact hp

theorem truthy_build_pageSize (P : RawParams) (d1 d2 : Int) :
    truthyLookup (_buildSearchParams P d1 d2) "pageSize" = true := by
  simp only [_buildSearchParams]
  split
  · split
    · exact truthyLookup_setKey_self _ _ _ (intRepr_ne_empty d2)
    case isFalse h => simpa using h
  · split
    · exact truthyLookup_setKey_self _ _ _ (intRepr_ne_empty d2)
    case isFalse h => simpa using h

theorem dropAndStringify_injectStr :
    ∀ (m : QueryParams), (∀ q ∈ m, q.2 ≠ "") → dropAndStringify (injectStr m) = m := by
  intro m
  induction m with
  | nil => intro _; rfl
  | cons q t ih =>
    intro h
    have hq : q.2 ≠ "" := h q (List.mem_cons_self _ _)
    have hkq : keepValue (Value.vstr q.2) = true := by simp [keepValue, hq]
    unfold injectStr dropAndStringify
    rw [List.map_cons, List.filter_cons, if_pos hkq, List.map_cons]
    have ht := ih (fun r hr => h r (List.mem_cons_of_mem _ hr))
    unfold dropAndStringify injectStr at ht
    rw [ht]
    rfl

theorem buildSearchParams_of_truthy (Q : RawParams) (d1 d2 : Int)
    (hp : truthyLookup (dropAndStringify Q) "page" = true)
    (hps : truthyLookup (dropAndStringify Q) "pageSize" = true) :
    _buildSearchParams Q d1 d2 = dropAndStringify Q := by
  simp [_buildSearchParams, hp, hps]

theorem buildSearchParams_idem (P : RawParams) :
    _buildSearchParams (injectStr (_buildSearchParams P 1 25)) 1 25 =
      _buildSearchParams P 1 25 := by
  have hne : ∀ q ∈ _buildSearchParams P 1 25, q.2 ≠ "" :=
    fun q hq => buildSearchParams_values_ne_empty hq
  have hd : dropAndStringify (injectStr (_buildSearchParams P 1 25)) =
      _buildSearchParams P 1 25 :=
    dropAndStringify_injectStr _ hne
  rw [buildSearchParams_of_truthy _ 1 25 (by rw [hd]; exact truthy_build_page P 1 25)
    (by rw [hd]; exact truthy_build_pageSize P 1 25), hd]

theorem lookupStr_dropAndStringify_some_ne_empty {P : RawParams} {k s : String}
    (h : lookupStr (dropAndStringify P) k = some s) : s ≠ "" := by
  unfold lookupStr at h
  cases hf : (dropAndStringify P).find? (fun p => p.1 == k) with
  | none => rw [hf] at h; exact absurd h (by simp)
  | some q =>
    rw [hf] at h
    have hq : q ∈ dropAndStringify P := List.mem_of_find?_eq_some hf
    have := mem_dropAndStringify_ne_empty hq
    have hqs : q.2 = s := by simpa using h
    exact hqs ▸ this

theorem build_lookup_page_of_some {P : RawParams} {d1 d2 : Int} {s : String}
    (h : lookupStr (dropAndStringify P) "page" = some s) :
    lookupStr (_buildSearchParams P d1 d2) "page" = some s := by
  have hs : s ≠ "" := lookupStr_dropAndStringify_some_ne_empty h
  have ht : truthyLookup (dropAndStringify P) "page" = true := by
    unfold truthyLookup
    rw [h]
    simp [hs]
  simp only [_buildSearchParams, ht, Bool.not_true, Bool.false_eq_true, if_false]
  split
  · rw [lookupStr_setKey_other _ _ _ _ (by decide)]
    exact h
  · exact h

theorem build_lookup_page_of_none {P : RawParams} {d1 d2 : Int}
    (h : lookupStr (dropAndStringify P) "page" = none) :
    lookupStr (_buildSearchParams P d1 d2) "page" = some (Int.repr d1) := by
  have ht : truthyLookup (dropAndStringify P) "page" = false := by
    unfold truthyLookup
    rw [h]
  simp only [_buildSearchParams, ht, Bool.not_false, if_true]
  split
  · rw [lookupStr_setKey_other _ _ _ _ (by decide), lookupStr_setKey_self]
  · rw [lookupStr_setKey_self]

theorem build_lookup_pageSize_of_some {P : RawParams} {d1 d2 : Int} {s : String}
    (h : lookupStr (dropAndStringify P) "pageSize" = some s) :
    lookupStr (_buildSearchParams P d1 d2) "pageSize" = some s := by
  have hs : s ≠ "" := lookupStr_dropAndStringify_some_ne_empty h
  simp only [_buildSearchParams]
  split
  · -- page default inserted
    have h2 : lookupStr (setKey (dropAndStringify P) "page" (Int.repr d1)) "pageSize" = some s := by
      rw [lookupStr_setKey_other _ _ _ _ (by decide)]
      exact h
    have ht2 : truthyLookup (setKey (dropAndStringify P) "page" (Int.repr d1)) "pageSize" = true := by
      unfold truthyLookup
      rw [h2]
      simp [hs]
    split
    case isTrue hc => rw [ht2] at hc; simp at hc
    case isFalse hc => exact h2
  · have ht2 : truthyLookup (dropAndStringify P) "pageSize" = true := by
      unfold truthyLookup
      rw [h]
      simp [hs]
    split
    case isTrue hc => rw [ht2] at hc; simp at hc
    case isFalse hc => exact h

theorem build_lookup_pageSize_of_none {P : RawParams} {d1 d2 : Int}
    (h : lookupStr (dropAndStringify P) "pageSize" = none) :
    lookupStr (_buildSearchParams P d1 d2) "pageSize" = some (Int.repr d2) := by
  simp only [_buildSearchParams]
  split
  · have h2 : lookupStr (setKey (dropAndStringify P) "page" (Int.repr d1)) "pageSize" = none := by
      rw [lookupStr_setKey_other _ _ _ _ (by decide)]
      exact h
    have ht2 : truthyLookup (setKey (dropAndStringify P) "page" (Int.repr d1)) "pageSize" = false := by
      unfold truthyLookup
      rw [h2]
    simp only [ht2, Bool.not_false, if_true]
    rw [lookupStr_setKey_self]
  · have ht2 : truthyLookup (dropAndStringify P) "pageSize" = false := by
      unfold truthyLookup
      rw [h]
    simp only [ht2, Bool.not_false, if_true]
    rw [lookupStr_setKey_self]

theorem formatError_shape (i : FEInput) :
    ∃ t, (formatError i).content = [⟨"text", t⟩] ∧ (formatError i).isError = some true := by
  cases i with
  | fnull => exact ⟨_, rfl, rfl⟩
  | fstr s => exact ⟨_, rfl, rfl⟩
  | fobj m => exact ⟨_, rfl, rfl⟩
  | ferror message name issues response => exact ⟨_, rfl, rfl⟩

theorem runRegisteredHandler_ok {hm : RegisteredHandlerModel} {args : RawParams}
    {p : Payload} (h : handlerCall hm args = .ok p) :
    runRegisteredHandler hm args = formatSuccess p := by
  cases hm with
  | inlineStyle ctx call =>
    have hc : call args = .ok p := h
    simp [runRegisteredHandler, hc]
  | formatErrorStyle call =>
    have hc : call args = .ok p := h
    simp [runRegisteredHandler, hc]

theorem runRegisteredHandler_err {hm : RegisteredHandlerModel} {args : RawParams}
    {e : HandleErrResult} (h : handlerCall hm args = .error e) :
    (∃ t, (runRegisteredHandler hm args).content = [⟨"text", t⟩]) ∧
    (runRegisteredHandler hm args).isError = some true := by
  cases hm with
  | inlineStyle ctx call =>
    have hc : call args = .error e := h
    have h2 : runRegisteredHandler (.inlineStyle ctx call) args =
        { content := [⟨"text", ctx ++ thrownMessage e⟩], isError := some true } := by
      simp [runRegisteredHandler, hc]
    rw [h2]
    exact ⟨⟨_, rfl⟩, rfl⟩
  | formatErrorStyle call =>
    have hc : call args = .error e := h
    have h2 : runRegisteredHandler (.formatErrorStyle call) args =
        formatError (feOfThrown e) := by
      simp [runRegisteredHandler, hc]
    rw [h2]
    obtain ⟨t, h3, h4⟩ := formatError_shape (feOfThrown e)
    exact ⟨⟨t, h3⟩, h4⟩

/-- C1 (amended): for every error carrying an upstream status `s`,
`_handleError` returns a fresh Error whose message contains the status and
the table suffix for `s` in 400, 401, 403, 404, or at least 500; for any
other status (for example 402) the error is returned unchanged and no
generic message is constructed. -/
theorem c1_handleError_status_table (m : Option String) (s : Int) :
    (s = 400 → _handleError (.vobj m (some ⟨some s⟩)) =
      .ok (.newError "API request failed with status 400: Bad Request - Invalid parameters")) ∧
    (s = 401 → _handleError (.vobj m (some ⟨some s⟩)) =
      .ok (.newError "API request failed with status 401: Unauthorized")) ∧
    (s = 403 → _handleError (.vobj m (some ⟨some s⟩)) =
      .ok (.newError "API request failed with status 403: Forbidden")) ∧
    (s = 404 → _handleError (.vobj m (some ⟨some s⟩)) =
      .ok (.newError "API request failed with status 404: Resource not found")) ∧
    (s ≥ 500 → _handleError (.vobj m (some ⟨some s⟩)) =
      .ok (.newError ("API request failed with status " ++ Int.repr s ++ ": Server error"))) ∧
    (s ≠ 400 → s ≠ 401 → s ≠ 403 → s ≠ 404 → s < 500 →
      _handleError (.vobj m (some ⟨some s⟩)) =
        .ok (.passthru (.vobj m (some ⟨some s⟩)))) := by
  refine ⟨?_, ?_, ?_, ?_, ?_, ?_⟩
  · intro h; subst h; simp [_handleError, errResponseTruthy]; rfl
  · intro h; subst h; simp [_handleError, errResponseTruthy]; rfl
  · intro h; subst h; simp [_handleError, errResponseTruthy]; rfl
  · intro h; subst h; simp [_handleError, errResponseTruthy]; rfl
  · intro h
    have h1 : s ≠ 400 := by omega
    have h2 : s ≠ 401 := by omega
    have h3 : s ≠ 403 := by omega
    have h4 : s ≠ 404 := by omega
    simp [_handleError, errResponseTruthy, h1, h2, h3, h4, h]
  · intro h1 h2 h3 h4 h5
    have h6 : ¬ (s ≥ 500) := by omega
    simp [_handleError, errResponseTruthy, h1, h2, h3, h4, h6]

/-- C1 counterexample: an error carrying the unmapped status 402 is
returned unchanged by `_handleError` — it carries no message at all, so
the claimed generic message "API request failed with status 402" does not
appear. -/
theorem c1_counterexample :
    _handleError (.vobj none (some ⟨some 402⟩)) =
      .ok (.passthru (.vobj none (some ⟨some 402⟩))) ∧
    resultMessage (.passthru (.vobj none (some ⟨some 402⟩))) = none := by
  exact ⟨rfl, rfl⟩

/-- C1 witness: the 400 row of the table at a concrete error value. -/
theorem c1_witness :
    _handleError (.vobj (some "HTTPError") (some ⟨some 400⟩)) =
      .ok (.newError "API request failed with status 400: Bad Request - Invalid parameters") :=
  (c1_handleError_status_table (some "HTTPError") 400).1 rfl

/-- C2 (amended): for every key `k` of a raw parameter map `P`, the
canonical query maps `k` to `String(P[k])` iff `P[k]` is kept (not null,
not undefined, not the empty string); a dropped key other than `page` and
`pageSize` never appears in the output (dropped `page`/`pageSize` reappear
with their default values). -/
theorem c2_canonicalize_entry_iff (P : RawParams) (hnd : (P.map Prod.fst).Nodup)
    (k : String) (v : Value) (hv : lookupVal P k = some v) :
    (lookupStr (_buildSearchParams P 1 25) k = some (valueToString v) ↔
      keepValue v = true) ∧
    (keepValue v = false → k ≠ "page" → k ≠ "pageSize" →
      lookupStr (_buildSearchParams P 1 25) k = none) := by
  constructor
  · constructor
    · intro hsome
      cases hkeep : keepValue v with
      | true => rfl
      | false =>
        exfalso
        have hnone : lookupStr (dropAndStringify P) k = none := by
          apply lookupStr_dropAndStringify_none hnd
          intro w hw
          rw [hv] at hw
          cases hw
          exact hkeep
        by_cases hk1 : k = "page"
        · subst hk1
          rw [build_lookup_page_of_none hnone] at hsome
          have hvs : valueToString v = Int.repr 1 := by
            injection hsome.symm
          cases v with
          | vnull => exact absurd hvs (by decide)
          | vundef => exact absurd hvs (by decide)
          | vstr s =>
            have hs : s = "" := by simpa [keepValue] using hkeep
            subst hs
            exact absurd hvs (by decide)
          | vnum n => simp [keepValue] at hkeep
          | vbool b => simp [keepValue] at hkeep
        · by_cases hk2 : k = "pageSize"
          · subst hk2
            rw [build_lookup_pageSize_of_none hnone] at hsome
            have hvs : valueToString v = Int.repr 25 := by
              injection hsome.symm
            cases v with
            | vnull => exact absurd hvs (by decide)
            | vundef => exact absurd hvs (by decide)
            | vstr s =>
              have hs : s = "" := by simpa [keepValue] using hkeep
              subst hs
              exact absurd hvs (by decide)
            | vnum n => simp [keepValue] at hkeep
            | vbool b => simp [keepValue] at hkeep
          · rw [buildSearchParams_lookup_other P 1 25 k hk1 hk2, hnone] at hsome
            exact absurd hsome (by simp)
    · intro hkeep
      have hsp : lookupStr (dropAndStringify P) k = some (valueToString v) :=
        lookupStr_dropAndStringify_kept hnd hv hkeep
      by_cases hk1 : k = "page"
      · subst hk1; exact build_lookup_page_of_some hsp
      · by_cases hk2 : k = "pageSize"
        · subst hk2; exact build_lookup_pageSize_of_some hsp
        · rw [buildSearchParams_lookup_other P 1 25 k hk1 hk2]
          exact hsp
  · intro hkeep hk1 hk2
    have hnone : lookupStr (dropAndStringify P) k = none := by
      apply lookupStr_dropAndStringify_none hnd
      intro w hw
      rw [hv] at hw
      cases hw
      exact hkeep
    rw [buildSearchParams_lookup_other P 1 25 k hk1 hk2]
    exact hnone

/-- C2 counterexample: the claim that no key with a dropped (here empty
string) value appears in the canonical output fails for `page`: the key
reappears, bound to the default value "1". -/
theorem c2_counterexample :
    keepValue (Value.vstr "") = false ∧
    lookupStr (_buildSearchParams [("page", Value.vstr "")] 1 25) "page" = some "1" := by
  exact ⟨rfl, by decide⟩

/-- C2 witness: a kept value 0 appears as "0", a null value (not named
page or pageSize) does not appear. -/
theorem c2_witness :
    lookupStr (_buildSearchParams [("version", Value.vnum 0), ("foo", Value.vnull)] 1 25)
        "version" = some "0" ∧
    lookupStr (_buildSearchParams [("version", Value.vnum 0), ("foo", Value.vnull)] 1 25)
        "foo" = none :=
  ⟨((c2_canonicalize_entry_iff [("version", Value.vnum 0), ("foo", Value.vnull)]
      (by decide) "version" (Value.vnum 0) (by decide)).1).mpr rfl,
   (c2_canonicalize_entry_iff [("version", Value.vnum 0), ("foo", Value.vnull)]
      (by decide) "foo" Value.vnull (by decide)).2 rfl (by decide) (by decide)⟩

/-- C3: a raw map whose `page`/`pageSize` are absent or dropped
canonicalizes with `page="1"` and `pageSize="25"`, and canonicalization is
idempotent for every raw map. -/
theorem c3_canonicalize_defaults_idem (P : RawParams) :
    ((P.map Prod.fst).Nodup →
      (∀ v, lookupVal P "page" = some v → keepValue v = false) →
      (∀ v, lookupVal P "pageSize" = some v → keepValue v = false) →
      lookupStr (_buildSearchParams P 1 25) "page" = some "1" ∧
      lookupStr (_buildSearchParams P 1 25) "pageSize" = some "25") ∧
    _buildSearchParams (injectStr (_buildSearchParams P 1 25)) 1 25 =
      _buildSearchParams P 1 25 := by
  constructor
  · intro hnd hp hps
    have h1 : lookupStr (dropAndStringify P) "page" = none :=
      lookupStr_dropAndStringify_none hnd hp
    have h2 : lookupStr (dropAndStringify P) "pageSize" = none :=
      lookupStr_dropAndStringify_none hnd hps
    exact ⟨build_lookup_page_of_none h1, build_lookup_pageSize_of_none h2⟩
  · exact buildSearchParams_idem P

/-- C3 witness: defaults fill in for a map whose `page` is null and whose
`pageSize` is missing. -/
theorem c3_witness :
    lookupStr (_buildSearchParams [("page", Value.vnull)] 1 25) "page" = some "1" ∧
    lookupStr (_buildSearchParams [("page", Value.vnull)] 1 25) "pageSize" = some "25" :=
  (c3_canonicalize_defaults_idem [("page", Value.vnull)]).1 (by decide)
    (by
      intro v hv
      have hv2 : Value.vnull = v := by
        simpa [lookupVal, List.find?] using hv
      rw [← hv2]
      rfl)
    (by
      intro v hv
      simp [lookupVal, List.find?] at hv)

/-- C4: every dispatched registered operation yields exactly one envelope
whose single content item has type "text"; `isError` is absent on success
and present-and-true exactly when validation or the facade call failed. -/
theorem c4_dispatch_envelope_totality (name : String) (parse : Except String RawParams)
    (hm : RegisteredHandlerModel) :
    (∃ t, (dispatchCallTool name parse
        (fun a => .envelope (runRegisteredHandler hm a))).content = [⟨"text", t⟩]) ∧
    ((∃ args p, parse = .ok args ∧ handlerCall hm args = .ok p) →
      (dispatchCallTool name parse
        (fun a => .envelope (runRegisteredHandler hm a))).isError = none) ∧
    ((dispatchCallTool name parse
        (fun a => .envelope (runRegisteredHandler hm a))).isError = some true ↔
      ¬ ∃ args p, parse = .ok args ∧ handlerCall hm args = .ok p) := by
  cases parse with
  | error msg =>
    refine ⟨⟨_, rfl⟩, ?_, ?_⟩
    · rintro ⟨args, p, habs, -⟩
      exact absurd habs (by simp)
    · constructor
      · rintro - ⟨args, p, habs, -⟩
        exact absurd habs (by simp)
      · intro _
        rfl
  | ok args =>
    have hd : dispatchCallTool name (.ok args)
        (fun a => .envelope (runRegisteredHandler hm a)) = runRegisteredHandler hm args := rfl
    rw [hd]
    cases hcall : handlerCall hm args with
    | ok p =>
      rw [runRegisteredHandler_ok hcall]
      refine ⟨⟨_, rfl⟩, fun _ => rfl, ?_⟩
      constructor
      · intro habs
        exact absurd habs (by simp [formatSuccess])
      · intro hno
        exact absurd ⟨args, p, rfl, hcall⟩ hno
    | error e =>
      obtain ⟨⟨t, hct⟩, hie⟩ := runRegisteredHandler_err hcall
      refine ⟨⟨t, hct⟩, ?_, ?_⟩
      · rintro ⟨a, p, ha, hc⟩
        injection ha with ha2
        subst ha2
        rw [hcall] at hc
        exact absurd hc (by simp)
      · rw [hie]
        constructor
        · rintro - ⟨a, p, ha, hc⟩
          injection ha with ha2
          subst ha2
          rw [hcall] at hc
          exact absurd hc (by simp)
        · intro _
          rfl

/-- C4 witness: a successful dispatch at concrete inputs has no `isError`
field. -/
theorem c4_witness :
    (dispatchCallTool "search_datasets" (.ok [])
      (fun a => .envelope (runRegisteredHandler
        (.formatErrorStyle (fun _ => .ok (.json "res"))) a))).isError = none :=
  (c4_dispatch_envelope_totality "search_datasets" (.ok [])
    (.formatErrorStyle (fun _ => .ok (.json "res")))).2.1 ⟨[], .json "res", rfl, rfl⟩

/-- C5 counterexample: the registered `get_code_list_entries` operation is
the concept-tools handler (the catalog-tools registration is overwritten),
and for a concrete id it issues `concepts/{id}` with
`includeCodeListEntries=true` — not the `concepts/{id}/codelistentries`
endpoint the claim names. -/
theorem c5_counterexample :
    toolsGet "get_code_list_entries" = some ToolHandlerId.conceptGetCodeListEntries ∧
    codeListEntriesHandlerRequest ToolHandlerId.conceptGetCodeListEntries
        "123e4567-e89b-12d3-a456-426614174000" =
      some ⟨"concepts/123e4567-e89b-12d3-a456-426614174000",
        some [("includeCodeListEntries", "true")]⟩ ∧
    (getConceptRequest "123e4567-e89b-12d3-a456-426614174000" true).path ≠
      "concepts/123e4567-e89b-12d3-a456-426614174000/codelistentries" := by
  refine ⟨rfl, rfl, ?_⟩
  decide

/-- C5 (amended): dispatching `get_code_list_entries` with a valid id
resolves to the concept-tools handler (registered last under that name),
which issues the GET against `concepts/{id}` with the query
`includeCodeListEntries=true`; no page/pageSize parameters are sent. -/
theorem c5_codelist_dispatch (id : String) :
    toolsGet "get_code_list_entries" = some ToolHandlerId.conceptGetCodeListEntries ∧
    codeListEntriesHandlerRequest ToolHandlerId.conceptGetCodeListEntries id =
      some ⟨"concepts/" ++ id, some [("includeCodeListEntries", "true")]⟩ := by
  exact ⟨rfl, rfl⟩

/-- C6: `getDataset` issues a plain request (no query object) when
`language` is absent, and exactly `language=fr` when it is "fr". -/
theorem c6_getDataset_call_shape (id : String) :
    getDatasetRequest id none = ⟨"datasets/" ++ id, none⟩ ∧
    getDatasetRequest id (some "fr") = ⟨"datasets/" ++ id, some [("language", "fr")]⟩ := by
  exact ⟨rfl, rfl⟩

/-- C7: an error with a non-empty message and no upstream status is
returned unchanged by `_handleError` (whether it has no `response` at all
or a `response` without `status`). -/
theorem c7_normalize_passthru (m : String) (resp : Option RespObj)
    (hm : m ≠ "") (hresp : resp = none ∨ resp = some ⟨none⟩) :
    _handleError (.vobj (some m) resp) = .ok (.passthru (.vobj (some m) resp)) := by
  rcases hresp with h | h <;> subst h
  · simp [_handleError, errMessageTruthy, errResponseTruthy, hm]
  · simp [_handleError, errMessageTruthy, errResponseTruthy, hm]

/-- C7 witness: a concrete timeout-style error passes through. -/
theorem c7_witness :
    _handleError (.vobj (some "Request timed out") none) =
      .ok (.passthru (.vobj (some "Request timed out") none)) :=
  c7_normalize_passthru "Request timed out" none (by decide) (Or.inl rfl)

/-- C8 counterexample: `_handleError(null)` raises a TypeError (the
property access `error.message` on `null` throws), so the normalizer is
not total on every input. -/
theorem c8_counterexample :
    _handleError ErrInput.vnull = .error "TypeError: Cannot read properties of null" := rfl

/-- C8 (amended): `_handleError` returns a value without raising for every
input except `null` and `undefined` (plain strings and plain objects with
or without `message`/`response` included). -/
theorem c8_normalize_total (e : ErrInput) (h1 : e ≠ .vnull) (h2 : e ≠ .vundef) :
    ∃ r, _handleError e = .ok r := by
  cases e with
  | vnull => exact absurd rfl h1
  | vundef => exact absurd rfl h2
  | vstr s => exact ⟨_, rfl⟩
  | vobj m r =>
    simp only [_handleError]
    by_cases hc : (errMessageTruthy (.vobj m r) && !errResponseTruthy (.vobj m r)) = true
    · rw [if_pos hc]
      exact ⟨_, rfl⟩
    · rw [if_neg hc]
      cases r with
      | none => exact ⟨_, rfl⟩
      | some resp =>
        obtain ⟨st⟩ := resp
        cases st with
        | none => exact ⟨_, rfl⟩
        | some s =>
          by_cases hs1 : s = 400
          · subst hs1; exact ⟨_, rfl⟩
          · by_cases hs2 : s = 401
            · subst hs2; exact ⟨_, rfl⟩
            · by_cases hs3 : s = 403
              · subst hs3; exact ⟨_, rfl⟩
              · by_cases hs4 : s = 404
                · subst hs4; exact ⟨_, rfl⟩
                · by_cases hs5 : s ≥ 500
                  · exact ⟨_, by simp [hs1, hs2, hs3, hs4, hs5]; try rfl⟩
                  · exact ⟨_, by simp [hs1, hs2, hs3, hs4, hs5]; try rfl⟩

/-- C8 witness: a plain string input is handled without raising. -/
theorem c8_witness :
    ErrInput.vstr "oops" ≠ ErrInput.vnull ∧
      ∃ r, _handleError (ErrInput.vstr "oops") = .ok r :=
  ⟨by decide, c8_normalize_total (.vstr "oops") (by decide) (by decide)⟩

set_option maxRecDepth 100000 in
/-- C9 counterexample: dispatching `search_concepts` with page 0 yields an
error envelope without any network call, but its payload (the rendered
ZodError issue list) does not contain the word "Validation". -/
theorem c9_counterexample :
    (dispatchSearchConcepts [("page", Value.vnum 0)] (.ok (.str "unused"))).1.isError =
      some true ∧
    (dispatchSearchConcepts [("page", Value.vnum 0)] (.ok (.str "unused"))).2 = none ∧
    (∀ c ∈ (dispatchSearchConcepts [("page", Value.vnum 0)] (.ok (.str "unused"))).1.content,
      strContains c.text "Validation" = false) := by
  decide

set_option maxRecDepth 100000 in
/-- C9 (amended): dispatching `search_concepts` with page 0 yields
`isError: true` and no network call; the payload carries the zod
`too_small` issue for `page` (its message text, not the word
"Validation"). -/
theorem c9_searchConcepts_page0 :
    (dispatchSearchConcepts [("page", Value.vnum 0)] (.ok (.str "unused"))).1.isError =
      some true ∧
    (dispatchSearchConcepts [("page", Value.vnum 0)] (.ok (.str "unused"))).2 = none ∧
    (∀ c ∈ (dispatchSearchConcepts [("page", Value.vnum 0)] (.ok (.str "unused"))).1.content,
      strContains c.text "too_small" = true ∧
        strContains c.text "Number must be greater than or equal to 1" = true) := by
  decide

/-- C10: the pagination-metadata formatter is 0-indexed: `totalPages` is
the ceiling of `totalItems / pageSize`, `hasNextPage` is
`page < totalPages - 1` and `hasPreviousPage` is `page > 0`. -/
theorem c10_formatPaginationInfo (page pageSize totalItems : Int) (h : 1 ≤ pageSize) :
    (formatPaginationInfo page pageSize totalItems).totalPages =
      ⌈(totalItems : ℚ) / (pageSize : ℚ)⌉ ∧
    ((formatPaginationInfo page pageSize totalItems).hasNextPage = true ↔
      page < (formatPaginationInfo page pageSize totalItems).totalPages - 1) ∧
    ((formatPaginationInfo page pageSize totalItems).hasPreviousPage = true ↔ 0 < page) := by
  refine ⟨rfl, ?_, ?_⟩ <;> simp [formatPaginationInfo]

/-- C10 witness: the formatter at page 0, pageSize 25, 100 items. -/
theorem c10_witness :
    (1 : Int) ≤ 25 ∧
      (formatPaginationInfo 0 25 100).totalPages =
        ⌈((100 : Int) : ℚ) / ((25 : Int) : ℚ)⌉ :=
  ⟨by norm_num, (c10_formatPaginationInfo 0 25 100 (by norm_num)).1⟩

end I14Y
